import Mathlib

/-!
Shallow embedding of the serverless item store's core lambdas:

* `translateItem.ts` — the translation cache orchestrator (`handler`,
  `translateText`, `cacheTranslation`);
* the update lambda (`handler`, `buildUpdateExpression`);
* `postItem.ts` — record creation (`handler`).

DynamoDB is modelled as a list of items addressed by the (userId, itemId)
key pair with first-match semantics; `update` calls without a condition
expression upsert, as DynamoDB does.  Each handler run additionally returns
the trace of store and translator operations it performed, so that claims
about "no write occurs" or "which tier was attempted first" are statable.
Storage-level write failures and translator failures are injected through
an environment record, mirroring the `try`/`catch` structure of the source.
-/

namespace ItemStore

/-- Attribute values stored on a record: strings, numbers, ISO timestamps
(modelled as naturals), and the string-to-string `translations` map. -/
inductive Value where
  | str (s : String)
  | num (n : Int)
  | time (t : Nat)
  | map (m : List (String × String))
  deriving Repr, DecidableEq

/-- JS truthiness of a possibly-absent attribute value: `undefined`, the
empty string and `0` are falsy; objects and nonempty strings are truthy. -/
def truthyV : Option Value → Bool
  | none => false
  | some (.str s) => s != ""
  | some (.num n) => n != 0
  | some (.time _) => true
  | some (.map _) => true

/-- JS truthiness of a possibly-absent string. -/
def strTruthy : Option String → Bool
  | none => false
  | some s => s != ""

/-- First-match lookup in a string-keyed association list (a JS object). -/
def lookupA {α : Type} : List (String × α) → String → Option α
  | [], _ => none
  | (k, v) :: rest, k' => if k == k' then some v else lookupA rest k'

/-- Assignment on a string-keyed association list: replace the first entry
with the given key in place, or append a new entry, matching how JS object
property assignment preserves the position of an existing key. -/
def setA {α : Type} : List (String × α) → String → α → List (String × α)
  | [], k, v => [(k, v)]
  | (k', v') :: rest, k, v =>
      if k' == k then (k, v) :: rest else (k', v') :: setA rest k v

/-- A stored record: the two key attributes and the remaining attributes. -/
structure Item where
  userId : String
  itemId : String
  attrs : List (String × Value)
  deriving Repr, DecidableEq

def Item.getAttr (it : Item) (k : String) : Option Value :=
  lookupA it.attrs k

def Item.setAttr (it : Item) (k : String) (v : Value) : Item :=
  { it with attrs := setA it.attrs k v }

/-- `item.translations || {}`: the structured translations map, empty when
the attribute is absent (or not a map). -/
def Item.translations (it : Item) : List (String × String) :=
  match it.getAttr "translations" with
  | some (.map m) => m
  | _ => []

/-- `dynamoDb.get` on the table slice: first item matching the key pair. -/
def findItem : List Item → String → String → Option Item
  | [], _, _ => none
  | it :: rest, u, i =>
      if it.userId == u && it.itemId == i then some it else findItem rest u i

/-- Replace the first item matching the key pair. -/
def replaceFirst : List Item → String → String → (Item → Item) → List Item
  | [], _, _, _ => []
  | it :: rest, u, i, f =>
      if it.userId == u && it.itemId == i then f it :: rest
      else it :: replaceFirst rest u i f

/-- The operations a handler run performs against the store and the
translator.  `dbWriteNested` is the shape of a targeted nested-key update
(`SET translations.#language = :text`); it is part of the operation
vocabulary so that claims about it are statable. -/
inductive Op where
  | dbGet (u i : String)
  | dbWriteMap (u i : String) (m : List (String × String))
  | dbWriteNested (u i lang text : String)
  | dbWriteFlat (u i lang text : String)
  | dbUpdateFields (u i : String) (assigns : List (String × Value))
  | translateCall (text lang : String)
  deriving Repr, DecidableEq

/-- Whether an operation mutates the store. -/
def Op.isWrite : Op → Bool
  | .dbGet .. => false
  | .translateCall .. => false
  | _ => true

/-- Whether an operation is a targeted nested-map-key update. -/
def Op.isNestedWrite : Op → Bool
  | .dbWriteNested .. => true
  | _ => false

/-- The typed failures `translate.translateText` can raise. -/
inductive TransErr where
  | unsupportedLanguagePair
  | textSizeLimitExceeded
  | serviceUnavailable
  | throttling
  | generic
  deriving Repr, DecidableEq

/-- Injected behaviour of the external collaborators: the translator as a
pure function, an optional translator failure, and failure switches for the
two write shapes `cacheTranslation` issues. -/
structure Env where
  translateFn : String → String → String
  translatorError : Option TransErr
  failMapWrite : Bool
  failFlatWrite : Bool

/-- `/^[a-z]{2}(-[A-Z]{2})?$/` on ASCII characters. -/
def isValidLanguageCode (s : String) : Bool :=
  match s.toList with
  | [a, b] => a.isLower && b.isLower
  | [a, b, c, d, e] => a.isLower && b.isLower && c == '-' && d.isUpper && e.isUpper
  | _ => false

/-- `event.queryStringParameters?.language || 'en'`. -/
def resolveLanguage : Option String → String
  | none => "en"
  | some s => if s == "" then "en" else s

/-- The error-name-to-status mapping of the outer catch in the translation
handler. -/
def translatorErrStatus : TransErr → Nat × String
  | .unsupportedLanguagePair => (400, "Unsupported language pair for translation")
  | .textSizeLimitExceeded => (400, "Description text is too large to translate")
  | .serviceUnavailable => (503, "Translation service is currently unavailable")
  | .throttling => (429, "Too many requests to the translation service")
  | .generic => (500, "Service error")

/-- Body of a successful translation response: the spread item, the
translated text, and the optional flags (absent flags modelled as false). -/
structure TransOk where
  item : Item
  translatedDescription : String
  fromCache : Bool
  fallbackCache : Bool
  cachingError : Bool
  deriving Repr, DecidableEq

inductive TransResult where
  | ok (r : TransOk)
  | err (status : Nat) (msg : String)
  deriving Repr, DecidableEq

/-- `cacheTranslation` from `translateItem.ts`: re-read the record, merge
the new translation into the `translations` map in memory, and write the
whole map back (`SET translations = :translations`); if anything in that
`try` block raises — including the write being rejected — fall back to
writing the single flat top-level attribute `translatedText_<language>`.
Returns `none` in the first component when even the fallback write raises
(the exception propagates to the caller). -/
def cacheTranslation (env : Env) (table : List Item) (u i lang text : String) :
    Option Item × List Item × List Op :=
  match findItem table u i with
  | some cur =>
      let updTr := setA cur.translations lang text
      let ops1 := [Op.dbGet u i, Op.dbWriteMap u i updTr]
      if env.failMapWrite then
        let ops2 := ops1 ++ [Op.dbWriteFlat u i lang text]
        if env.failFlatWrite then (none, table, ops2)
        else
          let updated := cur.setAttr ("translatedText_" ++ lang) (.str text)
          (some updated, replaceFirst table u i (fun _ => updated), ops2)
      else
        let updated := cur.setAttr "translations" (.map updTr)
        (some updated, replaceFirst table u i (fun _ => updated), ops1)
  | none =>
      -- the `try` block throws before any write; the catch attempts the
      -- flat-attribute update, which upserts when the key is absent
      let ops2 := [Op.dbGet u i, Op.dbWriteFlat u i lang text]
      if env.failFlatWrite then (none, table, ops2)
      else
        let created : Item :=
          { userId := u, itemId := i, attrs := [("translatedText_" ++ lang, .str text)] }
        (some created, table ++ [created], ops2)

/-- The translation handler after path-parameter validation and language
resolution: validate the language code, fetch the record, serve a
structured or flat-attribute cache hit, otherwise translate and persist
via `cacheTranslation`, tolerating persistence failure. -/
def translateCore (env : Env) (u i targetLanguage : String) (table : List Item) :
    TransResult × List Item × List Op :=
  if !(isValidLanguageCode targetLanguage) then
    (.err 400 "Invalid language code. Please use format en or en-US", table, [])
  else
    match findItem table u i with
    | none => (.err 404 "Item not found", table, [Op.dbGet u i])
    | some item =>
      if !(truthyV (item.getAttr "description")) then
        (.err 400 "Item has no description to translate", table, [Op.dbGet u i])
      else
        if strTruthy (lookupA item.translations targetLanguage) then
          (.ok { item := item,
                 translatedDescription := (lookupA item.translations targetLanguage).getD "",
                 fromCache := true, fallbackCache := false, cachingError := false },
           table, [Op.dbGet u i])
        else
          if truthyV (item.getAttr ("translatedText_" ++ targetLanguage)) then
            (.ok { item := item,
                   translatedDescription :=
                     match item.getAttr ("translatedText_" ++ targetLanguage) with
                     | some (.str s) => s
                     | _ => "",
                   fromCache := true, fallbackCache := true, cachingError := false },
             table, [Op.dbGet u i])
          else
            let description :=
              match item.getAttr "description" with
              | some (.str s) => s
              | _ => ""
            match env.translatorError with
            | some e =>
                (.err (translatorErrStatus e).1 (translatorErrStatus e).2, table,
                 [Op.dbGet u i, Op.translateCall description targetLanguage])
            | none =>
                let translatedText := env.translateFn description targetLanguage
                let ops1 := [Op.dbGet u i, Op.translateCall description targetLanguage]
                match cacheTranslation env table u i targetLanguage translatedText with
                | (some updatedItem, table', cops) =>
                    (.ok { item := updatedItem, translatedDescription := translatedText,
                           fromCache := false, fallbackCache := false, cachingError := false },
                     table', ops1 ++ cops)
                | (none, table', cops) =>
                    (.ok { item := item, translatedDescription := translatedText,
                           fromCache := false, fallbackCache := false, cachingError := true },
                     table', ops1 ++ cops)

/-- The translation lambda `handler`: validate path parameters, resolve the
target language (defaulting to English), then run the orchestrator. -/
def translateHandler (env : Env) (userId? itemId? language? : Option String)
    (table : List Item) : TransResult × List Item × List Op :=
  if !(strTruthy userId?) || !(strTruthy itemId?) then
    (.err 400 "Missing required path parameters: userId and itemId", table, [])
  else
    translateCore env (userId?.getD "") (itemId?.getD "") (resolveLanguage language?) table

/-- Output of `buildUpdateExpression`: the ordered assignment list and the
flag recording whether any assignment was emitted. -/
structure UpdateExprParts where
  assignments : List (String × Value)
  hasUpdates : Bool
  deriving Repr, DecidableEq

/-- Whether an entry's field name is not one of the two primary keys. -/
def nonKeyPair (kv : String × Value) : Bool :=
  !(kv.1 == "userId") && !(kv.1 == "itemId")

/-- `buildUpdateExpression` from the update lambda: every field of the
update data except the two primary keys becomes an assignment; `hasUpdates`
records whether any assignment was emitted. -/
def buildUpdateExpression (updateData : List (String × Value)) : UpdateExprParts :=
  let parts := updateData.filter nonKeyPair
  { assignments := parts, hasUpdates := !parts.isEmpty }

inductive UpdResult where
  | ok (item : Item)
  | err (status : Nat) (msg : String)
  deriving Repr, DecidableEq

/-- Price validation: `typeof price !== 'number' || isNaN(price)` fails for
every supplied non-number. -/
def priceOk : Option Value → Bool
  | none => true
  | some (.num _) => true
  | some _ => false

/-- Apply a list of `SET field = value` assignments in order. -/
def applyAssignments (it : Item) (assigns : List (String × Value)) : Item :=
  assigns.foldl (fun acc kv => acc.setAttr kv.1 kv.2) it

/-- The update lambda after path-parameter and body validation: validate
the price type, inject `updatedAt = now` into the update data, compile the
update expression, and issue the conditional update (`attribute_exists` on
the key). -/
def updateCore (now : Nat) (u i : String) (body : List (String × Value))
    (table : List Item) : UpdResult × List Item × List Op :=
  if !(priceOk (lookupA body "price")) then
    (.err 400 "Price must be a valid number", table, [])
  else
    let updateData := setA body "updatedAt" (.time now)
    let parts := buildUpdateExpression updateData
    if !parts.hasUpdates then
      (.err 400 "No valid fields to update", table, [])
    else
      match findItem table u i with
      | none =>
          (.err 404 "Item not found", table, [Op.dbUpdateFields u i parts.assignments])
      | some cur =>
          let updated := applyAssignments cur parts.assignments
          (.ok updated, replaceFirst table u i (fun _ => updated),
           [Op.dbUpdateFields u i parts.assignments])

/-- The update lambda `handler`: validate path parameters and the presence
of a request body, then run the update compilation and conditional
mutation. -/
def updateHandler (now : Nat) (userId? itemId? : Option String)
    (body? : Option (List (String × Value))) (table : List Item) :
    UpdResult × List Item × List Op :=
  if !(strTruthy userId?) || !(strTruthy itemId?) then
    (.err 400 "Missing required path parameters: userId and itemId", table, [])
  else
    match body? with
    | none => (.err 400 "Missing request body", table, [])
    | some body => updateCore now (userId?.getD "") (itemId?.getD "") body table

/-- `postItem.ts` after body validation: validate required key fields and
the price type, stamp `createdAt` and `updatedAt` with the same timestamp,
and put the new item under an `attribute_not_exists` condition. -/
def createCore (now : Nat) (body : List (String × Value)) (table : List Item) :
    UpdResult × List Item :=
  if !(truthyV (lookupA body "userId")) || !(truthyV (lookupA body "itemId")) then
    (.err 400 "Missing required fields: userId and itemId are required", table)
  else
    if !(priceOk (lookupA body "price")) then
      (.err 400 "Price must be a valid number", table)
    else
      let u := match lookupA body "userId" with | some (.str s) => s | _ => ""
      let i := match lookupA body "itemId" with | some (.str s) => s | _ => ""
      let attrs := setA (setA (body.filter nonKeyPair) "createdAt" (.time now))
        "updatedAt" (.time now)
      let newItem : Item := { userId := u, itemId := i, attrs := attrs }
      match findItem table u i with
      | some _ => (.err 409 "Item already exists with the provided userId and itemId", table)
      | none => (.ok newItem, table ++ [newItem])

/-- `postItem.ts` `handler`: validate the presence of a request body, then
create the record. -/
def createHandler (now : Nat) (body? : Option (List (String × Value)))
    (table : List Item) : UpdResult × List Item :=
  match body? with
  | none => (.err 400 "Missing request body", table)
  | some body => createCore now body table

/-! ### Concrete fixtures used by witnesses and counterexamples -/

/-- An environment where every collaborator behaves: the translator renders
any text as "bonjour" and both write shapes succeed. -/
def envOk : Env :=
  { translateFn := fun _ _ => "bonjour", translatorError := none,
    failMapWrite := false, failFlatWrite := false }

/-- An environment where the whole-map write is rejected but the flat
attribute write succeeds. -/
def envMapFails : Env := { envOk with failMapWrite := true }

/-- An environment where every persistence write is rejected. -/
def envAllFail : Env := { envOk with failMapWrite := true, failFlatWrite := true }

/-- A freshly created record with a description and no translations. -/
def itemBase : Item :=
  { userId := "u1", itemId := "i1",
    attrs := [("description", .str "hello"), ("createdAt", .time 5),
              ("updatedAt", .time 5)] }

/-! ### Association-list and table lemmas -/

theorem lookupA_setA_self {α : Type} (l : List (String × α)) (k : String) (v : α) :
    lookupA (setA l k v) k = some v := by
  induction l with
  | nil => simp [setA, lookupA]
  | cons hd tl ih =>
      obtain ⟨a, b⟩ := hd
      by_cases hak : a = k
      · subst hak; simp [setA, lookupA]
      · simp [setA, lookupA, hak, ih]

theorem lookupA_setA_ne {α : Type} (l : List (String × α)) (k k' : String) (v : α)
    (h : k ≠ k') : lookupA (setA l k v) k' = lookupA l k' := by
  have hkk' : (k == k') = false := by simp [h]
  induction l with
  | nil => simp [setA, lookupA, hkk']
  | cons hd tl ih =>
      obtain ⟨a, b⟩ := hd
      by_cases hak : a = k
      · subst hak; simp [setA, lookupA, hkk']
      · have hakb : (a == k) = false := by simp [hak]
        simp only [setA, hakb, Bool.false_eq_true, if_false, lookupA]
        by_cases hak' : a = k'
        · simp [hak']
        · have hne : (a == k') = false := by simp [hak']
          simp [hne, ih]

theorem mem_setA_self {α : Type} (l : List (String × α)) (k : String) (v : α) :
    (k, v) ∈ setA l k v := by
  induction l with
  | nil => simp [setA]
  | cons hd tl ih =>
      obtain ⟨a, b⟩ := hd
      by_cases hak : a = k
      · simp [setA, hak]
      · simp only [setA, beq_iff_eq, hak, if_false]
        exact List.mem_cons_of_mem _ ih

theorem mem_keys_setA {α : Type} (l : List (String × α)) (k k' : String) (v : α)
    (h : k' ∈ (setA l k v).map Prod.fst) : k' ∈ l.map Prod.fst ∨ k' = k := by
  induction l with
  | nil => simp [setA] at h; exact Or.inr h
  | cons hd tl ih =>
      obtain ⟨a, b⟩ := hd
      by_cases hak : a = k
      · subst hak
        simp only [setA, beq_self_eq_true, if_true, List.map_cons, List.mem_cons] at h
        rcases h with h | h
        · exact Or.inr h
        · exact Or.inl (by simp [h])
      · simp only [setA, beq_iff_eq, hak, if_false, List.map_cons, List.mem_cons] at h
        rcases h with h | h
        · exact Or.inl (by simp [h])
        · rcases ih h with h' | h'
          · exact Or.inl (List.mem_cons_of_mem _ h')
          · exact Or.inr h'

theorem nodup_keys_setA {α : Type} (l : List (String × α)) (k : String) (v : α)
    (h : (l.map Prod.fst).Nodup) : ((setA l k v).map Prod.fst).Nodup := by
  induction l with
  | nil => simp [setA]
  | cons hd tl ih =>
      obtain ⟨a, b⟩ := hd
      simp only [List.map_cons, List.nodup_cons] at h
      by_cases hak : a = k
      · subst hak
        simp only [setA, beq_self_eq_true, if_true, List.map_cons, List.nodup_cons]
        exact ⟨h.1, h.2⟩
      · simp only [setA, beq_iff_eq, hak, if_false, List.map_cons, List.nodup_cons]
        refine ⟨fun hmem => ?_, ih h.2⟩
        rcases mem_keys_setA tl k a v hmem with h' | h'
        · exact h.1 h'
        · exact hak h'

theorem lookupA_filter {α : Type} (p : String × α → Bool) (l : List (String × α))
    (k : String) (hp : ∀ v, p (k, v) = true) :
    lookupA (l.filter p) k = lookupA l k := by
  induction l with
  | nil => simp
  | cons hd tl ih =>
      obtain ⟨a, b⟩ := hd
      by_cases hak : a = k
      · subst hak
        simp [List.filter_cons, hp b, lookupA]
      · by_cases hpb : p (a, b) = true
        · simp [List.filter_cons, hpb, lookupA, hak, ih]
        · simp only [Bool.not_eq_true] at hpb
          simp [List.filter_cons, hpb, lookupA, hak, ih]

theorem filter_setA {α : Type} (p : String × α → Bool) (l : List (String × α))
    (k : String) (v : α) (hp : ∀ w, p (k, w) = true) :
    (setA l k v).filter p = setA (l.filter p) k v := by
  induction l with
  | nil => simp [setA, List.filter_cons, hp v]
  | cons hd tl ih =>
      obtain ⟨a, b⟩ := hd
      by_cases hak : a = k
      · subst hak
        simp [setA, List.filter_cons, hp b, hp v]
      · by_cases hpb : p (a, b) = true
        · simp [setA, List.filter_cons, hpb, hak, ih]
        · simp only [Bool.not_eq_true] at hpb
          simp [setA, List.filter_cons, hpb, hak, ih]

theorem getAttr_setAttr_self (it : Item) (k : String) (v : Value) :
    (it.setAttr k v).getAttr k = some v :=
  lookupA_setA_self it.attrs k v

theorem getAttr_setAttr_ne (it : Item) (k k' : String) (v : Value) (h : k ≠ k') :
    (it.setAttr k v).getAttr k' = it.getAttr k' :=
  lookupA_setA_ne it.attrs k k' v h

theorem findItem_keys (t : List Item) (u i : String) (it : Item)
    (h : findItem t u i = some it) : it.userId = u ∧ it.itemId = i := by
  induction t with
  | nil => simp [findItem] at h
  | cons hd tl ih =>
      simp only [findItem] at h
      by_cases hm : (hd.userId == u && hd.itemId == i) = true
      · rw [if_pos hm] at h
        cases h
        simpa using hm
      · rw [if_neg hm] at h
        exact ih h

theorem findItem_replaceFirst_const (t : List Item) (u i : String) (upd : Item)
    (hu : upd.userId = u)
    (hi : upd.itemId = i) :
    findItem (replaceFirst t u i fun _ => upd) u i
      = (findItem t u i).map fun _ => upd := by
  induction t with
  | nil => simp [findItem, replaceFirst]
  | cons hd tl ih =>
      by_cases hm : (hd.userId == u && hd.itemId == i) = true
      · simp [findItem, replaceFirst, hm, hu, hi]
      · simp [findItem, replaceFirst, hm, ih]

theorem map_replaceFirst {β : Type} (g : Item → β) (t : List Item) (u i : String)
    (f : Item → Item) (hg : ∀ it, findItem t u i = some it → g (f it) = g it) :
    (replaceFirst t u i f).map g = t.map g := by
  induction t with
  | nil => simp [replaceFirst]
  | cons hd tl ih =>
      by_cases hm : (hd.userId == u && hd.itemId == i) = true
      · have hhd : g (f hd) = g hd := hg hd (by simp [findItem, hm])
        simp [replaceFirst, hm, hhd]
      · have htl : ∀ it, findItem tl u i = some it → g (f it) = g it := by
          intro it hit
          exact hg it (by simp [findItem, hm, hit])
        simp [replaceFirst, hm, ih htl]

theorem applyAssignments_userId (it : Item) (l : List (String × Value)) :
    (applyAssignments it l).userId = it.userId := by
  induction l generalizing it with
  | nil => rfl
  | cons hd tl ih => exact ih (it.setAttr hd.1 hd.2)

theorem applyAssignments_itemId (it : Item) (l : List (String × Value)) :
    (applyAssignments it l).itemId = it.itemId := by
  induction l generalizing it with
  | nil => rfl
  | cons hd tl ih => exact ih (it.setAttr hd.1 hd.2)

theorem getAttr_applyAssignments_notMem (it : Item) (l : List (String × Value))
    (k : String) (h : ∀ kv ∈ l, kv.1 ≠ k) :
    (applyAssignments it l).getAttr k = it.getAttr k := by
  induction l generalizing it with
  | nil => rfl
  | cons hd tl ih =>
      have hhd : hd.1 ≠ k := h hd (List.mem_cons_self hd tl)
      have htl : ∀ kv ∈ tl, kv.1 ≠ k := fun kv hkv => h kv (List.mem_cons_of_mem hd hkv)
      calc (applyAssignments (it.setAttr hd.1 hd.2) tl).getAttr k
          = (it.setAttr hd.1 hd.2).getAttr k := ih (it.setAttr hd.1 hd.2) htl
        _ = it.getAttr k := getAttr_setAttr_ne it hd.1 k hd.2 hhd

theorem getAttr_applyAssignments_mem (it : Item) (l : List (String × Value))
    (k : String) (v : Value) (hnd : (l.map Prod.fst).Nodup) (hmem : (k, v) ∈ l) :
    (applyAssignments it l).getAttr k = some v := by
  induction l generalizing it with
  | nil => simp at hmem
  | cons hd tl ih =>
      simp only [List.map_cons, List.nodup_cons] at hnd
      rcases List.mem_cons.mp hmem with heq | hmem'
      · subst heq
        have htl : ∀ kv ∈ tl, kv.1 ≠ k := by
          intro kv hkv hk
          have hmap : kv.1 ∈ tl.map Prod.fst := List.mem_map_of_mem Prod.fst hkv
          rw [hk] at hmap
          exact hnd.1 hmap
        calc (applyAssignments (it.setAttr k v) tl).getAttr k
            = (it.setAttr k v).getAttr k := getAttr_applyAssignments_notMem _ tl k htl
          _ = some v := getAttr_setAttr_self it k v
      · exact ih (it.setAttr hd.1 hd.2) hnd.2 hmem'

/-! ### Claim C1 -/

/-- Claim C1, as stated, is false on the code: on a cache-missing
translation request with a working store, the first persistence operation
attempted is the whole-map replace (`SET translations = :translations`),
not a targeted merge of the nested key `translations[targetLanguage]`, and
no nested-key update is ever attempted. -/
theorem C1_counterexample :
    (((translateHandler envOk (some "u1") (some "i1") (some "fr")
        [itemBase]).2.2.filter Op.isWrite).head?
      = some (Op.dbWriteMap "u1" "i1" [("fr", "bonjour")]))
    ∧ (((translateHandler envOk (some "u1") (some "i1") (some "fr")
        [itemBase]).2.2.all fun o => !o.isNestedWrite) = true) := by
  constructor
  · rfl
  · rfl

/-- Claim C1 amended: for every translation persisted by `cacheTranslation`
for an existing record, the first (and preferred) persistence attempt is
the whole-map replace that re-reads the record and writes back the merged
`translations` map; the flat top-level attribute write is attempted exactly
when the whole-map write raises a storage error; and no targeted nested-key
merge is ever attempted. -/
theorem C1_tier_order (env : Env) (table : List Item) (u i lang text : String)
    (cur : Item) (hfind : findItem table u i = some cur) :
    ((cacheTranslation env table u i lang text).2.2.filter Op.isWrite).head?
        = some (Op.dbWriteMap u i (setA cur.translations lang text))
    ∧ (((cacheTranslation env table u i lang text).2.2.all
        fun o => !o.isNestedWrite) = true)
    ∧ (env.failMapWrite = false →
        (cacheTranslation env table u i lang text).2.2.filter Op.isWrite
          = [Op.dbWriteMap u i (setA cur.translations lang text)])
    ∧ (env.failMapWrite = true →
        (cacheTranslation env table u i lang text).2.2.filter Op.isWrite
          = [Op.dbWriteMap u i (setA cur.translations lang text),
             Op.dbWriteFlat u i lang text]) := by
  cases hmap : env.failMapWrite with
  | false =>
      simp [cacheTranslation, hfind, hmap, Op.isWrite, Op.isNestedWrite,
        List.filter_cons]
  | true =>
      cases hflat : env.failFlatWrite with
      | false =>
          simp [cacheTranslation, hfind, hmap, hflat, Op.isWrite, Op.isNestedWrite,
            List.filter_cons]
      | true =>
          simp [cacheTranslation, hfind, hmap, hflat, Op.isWrite, Op.isNestedWrite,
            List.filter_cons]

/-- Witness for `C1_tier_order` at a concrete record and environment. -/
theorem C1_tier_order_witness :
    ((cacheTranslation envOk [itemBase] "u1" "i1" "fr" "bonjour").2.2.filter
        Op.isWrite).head? = some (Op.dbWriteMap "u1" "i1" [("fr", "bonjour")]) :=
  (C1_tier_order envOk [itemBase] "u1" "i1" "fr" "bonjour" itemBase (by rfl)).1

/-! ### Claim C2 -/

/-- Claim C2 exposes a code bug: an update request whose body is empty, or
contains only the two key fields, is not rejected with `InvalidRequest`.
Because the handler injects `updatedAt` into the update data before
compiling the expression, `hasUpdates` is always true, the dead
"No valid fields to update" branch never fires, and a mutation consisting
of just the forced timestamp is sent to the store and succeeds. -/
theorem C2_empty_update_not_rejected :
    (updateHandler 10 (some "u1") (some "i1") (some []) [itemBase]
      = (.ok { userId := "u1", itemId := "i1",
               attrs := [("description", .str "hello"), ("createdAt", .time 5),
                         ("updatedAt", .time 10)] },
         [{ userId := "u1", itemId := "i1",
            attrs := [("description", .str "hello"), ("createdAt", .time 5),
                      ("updatedAt", .time 10)] }],
         [Op.dbUpdateFields "u1" "i1" [("updatedAt", .time 10)]]))
    ∧ (updateHandler 10 (some "u1") (some "i1")
        (some [("userId", .str "u1"), ("itemId", .str "i1")]) [itemBase]
      = (.ok { userId := "u1", itemId := "i1",
               attrs := [("description", .str "hello"), ("createdAt", .time 5),
                         ("updatedAt", .time 10)] },
         [{ userId := "u1", itemId := "i1",
            attrs := [("description", .str "hello"), ("createdAt", .time 5),
                      ("updatedAt", .time 10)] }],
         [Op.dbUpdateFields "u1" "i1" [("updatedAt", .time 10)]])) := by
  constructor
  · rfl
  · rfl

/-- Reduction of the translation handler on well-formed path parameters and
an explicitly supplied nonempty language parameter. -/
theorem translateHandler_reduce (env : Env) (u i lang : String) (table : List Item)
    (hu : u ≠ "") (hi : i ≠ "") (hlang : lang ≠ "") :
    translateHandler env (some u) (some i) (some lang) table
      = translateCore env u i lang table := by
  have hub : (u != "") = true := bne_iff_ne.mpr hu
  have hib : (i != "") = true := bne_iff_ne.mpr hi
  have hlb : (lang == "") = false := beq_eq_false_iff_ne.mpr hlang
  simp [translateHandler, strTruthy, resolveLanguage, hub, hib, hlb]

/-! ### Claim C9 -/

/-- Claim C9: a translation request fails with status 400 when the target
language does not match the two-letter-optionally-region-tagged pattern,
with 404 when the record does not exist, and with 400 when the record's
description is empty; in each case the returned operation trace contains no
translator call and no write, and the table is unchanged. -/
theorem C9_validation_failures :
    (∀ (env : Env) (u i lang : String) (table : List Item),
       u ≠ "" → i ≠ "" → lang ≠ "" →
       isValidLanguageCode lang = false →
       translateHandler env (some u) (some i) (some lang) table
         = (.err 400 "Invalid language code. Please use format en or en-US", table, []))
    ∧ (∀ (env : Env) (u i lang : String) (table : List Item),
       u ≠ "" → i ≠ "" → lang ≠ "" →
       isValidLanguageCode lang = true → findItem table u i = none →
       translateHandler env (some u) (some i) (some lang) table
         = (.err 404 "Item not found", table, [Op.dbGet u i]))
    ∧ (∀ (env : Env) (u i lang : String) (table : List Item) (item : Item),
       u ≠ "" → i ≠ "" → lang ≠ "" →
       isValidLanguageCode lang = true → findItem table u i = some item →
       truthyV (item.getAttr "description") = false →
       translateHandler env (some u) (some i) (some lang) table
         = (.err 400 "Item has no description to translate", table, [Op.dbGet u i])) := by
  refine ⟨?_, ?_, ?_⟩
  · intro env u i lang table hu hi hlang hv
    rw [translateHandler_reduce env u i lang table hu hi hlang]
    simp [translateCore, hv]
  · intro env u i lang table hu hi hlang hv hfind
    rw [translateHandler_reduce env u i lang table hu hi hlang]
    simp [translateCore, hv, hfind]
  · intro env u i lang table item hu hi hlang hv hfind hdesc
    rw [translateHandler_reduce env u i lang table hu hi hlang]
    simp [translateCore, hv, hfind, hdesc]

/-- Witness for `C9_validation_failures`: the three failure modes at
concrete inputs. -/
theorem C9_validation_failures_witness :
    (translateHandler envOk (some "u1") (some "i1") (some "xyz") [itemBase]
      = (.err 400 "Invalid language code. Please use format en or en-US",
         [itemBase], []))
    ∧ (translateHandler envOk (some "u1") (some "i1") (some "fr") []
      = (.err 404 "Item not found", [], [Op.dbGet "u1" "i1"]))
    ∧ (translateHandler envOk (some "u1") (some "i1") (some "fr")
        [{ userId := "u1", itemId := "i1", attrs := [] }]
      = (.err 400 "Item has no description to translate",
         [{ userId := "u1", itemId := "i1", attrs := [] }],
         [Op.dbGet "u1" "i1"])) :=
  ⟨C9_validation_failures.1 envOk "u1" "i1" "xyz" [itemBase]
      (by decide) (by decide) (by decide) (by decide),
   C9_validation_failures.2.1 envOk "u1" "i1" "fr" []
      (by decide) (by decide) (by decide) (by decide) (by decide),
   C9_validation_failures.2.2 envOk "u1" "i1" "fr"
      [{ userId := "u1", itemId := "i1", attrs := [] }]
      { userId := "u1", itemId := "i1", attrs := [] }
      (by decide) (by decide) (by decide) (by decide) (by decide) (by decide)⟩

/-! ### Claim C3 -/

/-- Claim C3: when both persistence writes fail with a storage error after
a successful translator call, the handler still returns the translated text
as a success, with the explicit caching-failed indicator set, the table
unchanged, and the persistence failure never surfaced as a request
failure. -/
theorem C3_total_failure_tolerated (env : Env) (u i lang desc : String)
    (table : List Item) (item : Item)
    (herr : env.translatorError = none)
    (hmap : env.failMapWrite = true)
    (hflat : env.failFlatWrite = true)
    (hu : u ≠ "") (hi : i ≠ "") (hlang : lang ≠ "")
    (hv : isValidLanguageCode lang = true)
    (hfind : findItem table u i = some item)
    (hdesc : item.getAttr "description" = some (.str desc))
    (hdne : desc ≠ "")
    (hmiss : strTruthy (lookupA item.translations lang) = false)
    (hflatmiss : truthyV (item.getAttr ("translatedText_" ++ lang)) = false) :
    translateHandler env (some u) (some i) (some lang) table
      = (.ok { item := item, translatedDescription := env.translateFn desc lang,
               fromCache := false, fallbackCache := false, cachingError := true },
         table,
         [Op.dbGet u i, Op.translateCall desc lang, Op.dbGet u i,
          Op.dbWriteMap u i (setA item.translations lang (env.translateFn desc lang)),
          Op.dbWriteFlat u i lang (env.translateFn desc lang)]) := by
  have htv : truthyV (some (Value.str desc)) = true := by
    show (desc != "") = true
    exact bne_iff_ne.mpr hdne
  rw [translateHandler_reduce env u i lang table hu hi hlang]
  simp [translateCore, cacheTranslation, hv, hfind, hdesc, htv, hmiss,
    hflatmiss, herr, hmap, hflat]

/-- Witness for `C3_total_failure_tolerated` at a concrete record and the
all-writes-fail environment. -/
theorem C3_total_failure_tolerated_witness :
    translateHandler envAllFail (some "u1") (some "i1") (some "fr") [itemBase]
      = (.ok { item := itemBase, translatedDescription := "bonjour",
               fromCache := false, fallbackCache := false, cachingError := true },
         [itemBase],
         [Op.dbGet "u1" "i1", Op.translateCall "hello" "fr", Op.dbGet "u1" "i1",
          Op.dbWriteMap "u1" "i1" [("fr", "bonjour")],
          Op.dbWriteFlat "u1" "i1" "fr" "bonjour"]) :=
  C3_total_failure_tolerated envAllFail "u1" "i1" "fr" "hello" [itemBase] itemBase
    (by rfl) (by rfl) (by rfl) (by decide) (by decide) (by decide) (by decide)
    (by rfl) (by rfl) (by decide) (by rfl) (by rfl)

/-! ### Claim C4 -/

/-- Claim C4: with a working store and translator, translating the same
(ownerId, itemId, targetLanguage) twice with no intervening change yields
the same translated text on both calls; the second call reports
fromCache = true, performs only the single record read (so it neither
invokes the translator nor writes), and leaves the store unchanged. -/
theorem C4_translate_idempotent (env : Env) (u i lang desc : String)
    (table : List Item) (item : Item)
    (herr : env.translatorError = none)
    (hmap : env.failMapWrite = false)
    (hu : u ≠ "") (hi : i ≠ "") (hlang : lang ≠ "")
    (hv : isValidLanguageCode lang = true)
    (hfind : findItem table u i = some item)
    (hdesc : item.getAttr "description" = some (.str desc))
    (hdne : desc ≠ "")
    (hmiss : strTruthy (lookupA item.translations lang) = false)
    (hflatmiss : truthyV (item.getAttr ("translatedText_" ++ lang)) = false)
    (htne : env.translateFn desc lang ≠ "") :
    (∃ o1, (translateHandler env (some u) (some i) (some lang) table).1 = .ok o1
        ∧ o1.fromCache = false
        ∧ o1.translatedDescription = env.translateFn desc lang)
    ∧ (∃ o2, (translateHandler env (some u) (some i) (some lang)
          (translateHandler env (some u) (some i) (some lang) table).2.1).1 = .ok o2
        ∧ o2.fromCache = true
        ∧ o2.translatedDescription = env.translateFn desc lang)
    ∧ (translateHandler env (some u) (some i) (some lang)
          (translateHandler env (some u) (some i) (some lang) table).2.1).2.2
        = [Op.dbGet u i]
    ∧ (translateHandler env (some u) (some i) (some lang)
          (translateHandler env (some u) (some i) (some lang) table).2.1).2.1
        = (translateHandler env (some u) (some i) (some lang) table).2.1 := by
  obtain ⟨hku, hki⟩ := findItem_keys table u i item hfind
  have htv : truthyV (some (Value.str desc)) = true := by
    show (desc != "") = true
    exact bne_iff_ne.mpr hdne
  have hst : strTruthy (some (env.translateFn desc lang)) = true := by
    show (env.translateFn desc lang != "") = true
    exact bne_iff_ne.mpr htne
  have h1 : translateHandler env (some u) (some i) (some lang) table
      = (.ok { item := item.setAttr "translations"
                 (.map (setA item.translations lang (env.translateFn desc lang))),
               translatedDescription := env.translateFn desc lang,
               fromCache := false, fallbackCache := false, cachingError := false },
         replaceFirst table u i (fun _ => item.setAttr "translations"
           (.map (setA item.translations lang (env.translateFn desc lang)))),
         [Op.dbGet u i, Op.translateCall desc lang, Op.dbGet u i,
          Op.dbWriteMap u i (setA item.translations lang (env.translateFn desc lang))]) := by
    rw [translateHandler_reduce env u i lang table hu hi hlang]
    simp [translateCore, cacheTranslation, hv, hfind, hdesc, htv, hmiss,
      hflatmiss, herr, hmap]
  have hfind1 : findItem (replaceFirst table u i (fun _ => item.setAttr "translations"
        (.map (setA item.translations lang (env.translateFn desc lang))))) u i
      = some (item.setAttr "translations"
          (.map (setA item.translations lang (env.translateFn desc lang)))) := by
    rw [findItem_replaceFirst_const table u i (item.setAttr "translations"
          (.map (setA item.translations lang (env.translateFn desc lang)))) hku hki,
        hfind]
    rfl
  have hdesc1 : (item.setAttr "translations"
        (.map (setA item.translations lang (env.translateFn desc lang)))).getAttr
          "description" = some (.str desc) := by
    rw [getAttr_setAttr_ne item _ _ _ (by decide)]
    exact hdesc
  have htr1 : (item.setAttr "translations"
        (.map (setA item.translations lang (env.translateFn desc lang)))).translations
      = setA item.translations lang (env.translateFn desc lang) := by
    unfold Item.translations
    rw [getAttr_setAttr_self]
  have h2 : translateHandler env (some u) (some i) (some lang)
        (replaceFirst table u i (fun _ => item.setAttr "translations"
          (.map (setA item.translations lang (env.translateFn desc lang)))))
      = (.ok { item := item.setAttr "translations"
                 (.map (setA item.translations lang (env.translateFn desc lang))),
               translatedDescription := env.translateFn desc lang,
               fromCache := true, fallbackCache := false, cachingError := false },
         replaceFirst table u i (fun _ => item.setAttr "translations"
           (.map (setA item.translations lang (env.translateFn desc lang)))),
         [Op.dbGet u i]) := by
    rw [translateHandler_reduce env u i lang _ hu hi hlang]
    simp [translateCore, hv, hfind1, hdesc1, htv, htr1, lookupA_setA_self, hst]
  refine ⟨?_, ?_, ?_, ?_⟩
  · rw [h1]
    exact ⟨_, rfl, rfl, rfl⟩
  · rw [h1]
    simp only []
    rw [h2]
    exact ⟨_, rfl, rfl, rfl⟩
  · rw [h1]
    simp only []
    rw [h2]
  · rw [h1]
    simp only []
    rw [h2]

/-- Witness for `C4_translate_idempotent`: on the concrete record the
second call is a pure cache hit performing only the read. -/
theorem C4_translate_idempotent_witness :
    (∃ o2, (translateHandler envOk (some "u1") (some "i1") (some "fr")
        (translateHandler envOk (some "u1") (some "i1") (some "fr") [itemBase]).2.1).1
          = .ok o2
      ∧ o2.fromCache = true ∧ o2.translatedDescription = "bonjour")
    ∧ (translateHandler envOk (some "u1") (some "i1") (some "fr")
        (translateHandler envOk (some "u1") (some "i1") (some "fr") [itemBase]).2.1).2.2
      = [Op.dbGet "u1" "i1"] :=
  ⟨(C4_translate_idempotent envOk "u1" "i1" "fr" "hello" [itemBase] itemBase
      rfl rfl (by decide) (by decide) (by decide) (by decide) rfl rfl (by decide)
      rfl rfl (by decide)).2.1,
   (C4_translate_idempotent envOk "u1" "i1" "fr" "hello" [itemBase] itemBase
      rfl rfl (by decide) (by decide) (by decide) (by decide) rfl rfl (by decide)
      rfl rfl (by decide)).2.2.1⟩

/-! ### Claim C5 -/

/-- A record carrying a flat emergency-fallback attribute and no structured
translations map. -/
def itemFlat : Item :=
  { userId := "u1", itemId := "i1",
    attrs := [("description", .str "hello"),
              ("translatedText_fr", .str "bonjour")] }

/-- Claim C5, as stated, is false on the code: a request whose translation
was persisted via the emergency flat attribute (the whole-map write failed,
the flat write succeeded) reports no fallback indicator at all — the
response has fallbackCache = false even though a flat-attribute write was
performed. -/
theorem C5_counterexample :
    ((translateHandler envMapFails (some "u1") (some "i1") (some "fr") [itemBase]).1
      = .ok { item := itemBase.setAttr "translatedText_fr" (.str "bonjour"),
              translatedDescription := "bonjour", fromCache := false,
              fallbackCache := false, cachingError := false })
    ∧ (Op.dbWriteFlat "u1" "i1" "fr" "bonjour"
        ∈ (translateHandler envMapFails (some "u1") (some "i1") (some "fr")
            [itemBase]).2.2) := by
  refine ⟨rfl, ?_⟩
  decide

/-- Claim C5 amended: the response's fallback indicator (`fallbackCache`)
is true only on a flat-attribute cache hit, in which case the request is
also reported as a cache hit; a flat-attribute hit produces exactly that
flagged response; and a request that persisted its translation via the
flat attribute in the same call reports fallbackCache = false (Tier-C
persistence is not reflected in the response). -/
theorem C5_fallback_flag :
    (∀ (env : Env) (userId? itemId? language? : Option String) (table : List Item)
       (r : TransOk),
       (translateHandler env userId? itemId? language? table).1 = .ok r →
       r.fallbackCache = true →
       r.fromCache = true
       ∧ strTruthy (lookupA r.item.translations (resolveLanguage language?)) = false
       ∧ truthyV (r.item.getAttr ("translatedText_" ++ resolveLanguage language?)) = true)
    ∧ (∀ (env : Env) (userId? itemId? language? : Option String) (table : List Item)
       (r : TransOk) (u' i' l' t' : String),
       (translateHandler env userId? itemId? language? table).1 = .ok r →
       Op.dbWriteFlat u' i' l' t' ∈ (translateHandler env userId? itemId? language? table).2.2 →
       r.fallbackCache = false ∧ r.fromCache = false)
    ∧ (∀ (env : Env) (u i lang fb : String) (table : List Item) (item : Item),
       u ≠ "" → i ≠ "" → lang ≠ "" →
       isValidLanguageCode lang = true →
       findItem table u i = some item →
       truthyV (item.getAttr "description") = true →
       strTruthy (lookupA item.translations lang) = false →
       item.getAttr ("translatedText_" ++ lang) = some (.str fb) →
       fb ≠ "" →
       translateHandler env (some u) (some i) (some lang) table
         = (.ok { item := item, translatedDescription := fb, fromCache := true,
                  fallbackCache := true, cachingError := false },
            table, [Op.dbGet u i])) := by
  refine ⟨?_, ?_, ?_⟩
  · intro env userId? itemId? language? table r hr hfb
    by_cases hg : (!(strTruthy userId?) || !(strTruthy itemId?)) = true
    · rw [translateHandler, if_pos hg] at hr
      exact absurd hr (by simp)
    · rw [translateHandler, if_neg hg] at hr
      generalize hL : resolveLanguage language? = lang at hr ⊢
      generalize userId?.getD "" = u at hr
      generalize itemId?.getD "" = i at hr
      by_cases hv : isValidLanguageCode lang = true
      · cases hfi : findItem table u i with
        | none => simp [translateCore, hv, hfi] at hr
        | some item =>
          by_cases hdt : truthyV (item.getAttr "description") = true
          · by_cases hhit : strTruthy (lookupA item.translations lang) = true
            · simp [translateCore, hv, hfi, hdt, hhit] at hr
              subst hr
              simp at hfb
            · simp only [Bool.not_eq_true] at hhit
              by_cases hfa : truthyV (item.getAttr ("translatedText_" ++ lang)) = true
              · simp [translateCore, hv, hfi, hdt, hhit, hfa] at hr
                subst hr
                exact ⟨rfl, hhit, hfa⟩
              · simp only [Bool.not_eq_true] at hfa
                cases herr : env.translatorError with
                | some e => simp [translateCore, hv, hfi, hdt, hhit, hfa, herr] at hr
                | none =>
                  cases hm : env.failMapWrite with
                  | false =>
                      simp [translateCore, cacheTranslation, hv, hfi, hdt, hhit, hfa,
                        herr, hm] at hr
                      subst hr
                      simp at hfb
                  | true =>
                    cases hf : env.failFlatWrite with
                    | false =>
                        simp [translateCore, cacheTranslation, hv, hfi, hdt, hhit, hfa,
                          herr, hm, hf] at hr
                        subst hr
                        simp at hfb
                    | true =>
                        simp [translateCore, cacheTranslation, hv, hfi, hdt, hhit, hfa,
                          herr, hm, hf] at hr
                        subst hr
                        simp at hfb
          · simp only [Bool.not_eq_true] at hdt
            simp [translateCore, hv, hfi, hdt] at hr
      · simp only [Bool.not_eq_true] at hv
        simp [translateCore, hv] at hr
  · intro env userId? itemId? language? table r u' i' l' t' hr hop
    by_cases hg : (!(strTruthy userId?) || !(strTruthy itemId?)) = true
    · rw [translateHandler, if_pos hg] at hr
      exact absurd hr (by simp)
    · rw [translateHandler, if_neg hg] at hr
      rw [translateHandler, if_neg hg] at hop
      generalize hL : resolveLanguage language? = lang at hr hop
      generalize userId?.getD "" = u at hr hop
      generalize itemId?.getD "" = i at hr hop
      by_cases hv : isValidLanguageCode lang = true
      · cases hfi : findItem table u i with
        | none => simp [translateCore, hv, hfi] at hr
        | some item =>
          by_cases hdt : truthyV (item.getAttr "description") = true
          · by_cases hhit : strTruthy (lookupA item.translations lang) = true
            · simp [translateCore, hv, hfi, hdt, hhit] at hop
            · simp only [Bool.not_eq_true] at hhit
              by_cases hfa : truthyV (item.getAttr ("translatedText_" ++ lang)) = true
              · simp [translateCore, hv, hfi, hdt, hhit, hfa] at hop
              · simp only [Bool.not_eq_true] at hfa
                cases herr : env.translatorError with
                | some e => simp [translateCore, hv, hfi, hdt, hhit, hfa, herr] at hr
                | none =>
                  cases hm : env.failMapWrite with
                  | false =>
                      simp [translateCore, cacheTranslation, hv, hfi, hdt, hhit, hfa,
                        herr, hm] at hop
                  | true =>
                    cases hf : env.failFlatWrite with
                    | false =>
                        simp [translateCore, cacheTranslation, hv, hfi, hdt, hhit, hfa,
                          herr, hm, hf] at hr
                        subst hr
                        exact ⟨rfl, rfl⟩
                    | true =>
                        simp [translateCore, cacheTranslation, hv, hfi, hdt, hhit, hfa,
                          herr, hm, hf] at hr
                        subst hr
                        exact ⟨rfl, rfl⟩
          · simp only [Bool.not_eq_true] at hdt
            simp [translateCore, hv, hfi, hdt] at hr
      · simp only [Bool.not_eq_true] at hv
        simp [translateCore, hv] at hr
  · intro env u i lang fb table item hu hi hlang hv hfind hdt hmiss hflatv hfbne
    have hft : truthyV (some (Value.str fb)) = true := by
      show (fb != "") = true
      exact bne_iff_ne.mpr hfbne
    rw [translateHandler_reduce env u i lang table hu hi hlang]
    simp [translateCore, hv, hfind, hdt, hmiss, hflatv, hft]

/-- Witness for `C5_fallback_flag`: a flat-attribute cache hit on a
concrete record is reported as a flagged cache hit. -/
theorem C5_fallback_flag_witness :
    translateHandler envOk (some "u1") (some "i1") (some "fr") [itemFlat]
      = (.ok { item := itemFlat, translatedDescription := "bonjour",
               fromCache := true, fallbackCache := true, cachingError := false },
         [itemFlat], [Op.dbGet "u1" "i1"]) :=
  C5_fallback_flag.2.2 envOk "u1" "i1" "fr" "bonjour" [itemFlat] itemFlat
    (by decide) (by decide) (by decide) (by decide) rfl (by decide) rfl rfl
    (by decide)

/-! ### Timestamp-preservation helpers -/

/-- A short attribute name is never the flat emergency attribute name. -/
theorem ne_flatAttrName (k : String) (hlen : k.length < 15) (s : String) :
    k ≠ "translatedText_" ++ s := by
  intro h
  have hl := congrArg String.length h
  rw [String.length_append] at hl
  have h15 : "translatedText_".length = 15 := rfl
  omega

theorem mem_setA {α : Type} (l : List (String × α)) (k : String) (v : α)
    (kv : String × α) (h : kv ∈ setA l k v) : kv ∈ l ∨ kv.1 = k := by
  induction l with
  | nil =>
      simp only [setA, List.mem_singleton] at h
      subst h
      exact Or.inr rfl
  | cons hd tl ih =>
      obtain ⟨a, b⟩ := hd
      by_cases hak : a = k
      · subst hak
        simp only [setA, beq_self_eq_true, if_true, List.mem_cons] at h
        rcases h with h | h
        · subst h; exact Or.inr rfl
        · exact Or.inl (List.mem_cons_of_mem _ h)
      · have hakb : (a == k) = false := by simp [hak]
        simp only [setA, hakb, Bool.false_eq_true, if_false, List.mem_cons] at h
        rcases h with h | h
        · subst h; exact Or.inl (List.mem_cons_self _ _)
        · rcases ih h with h' | h'
          · exact Or.inl (List.mem_cons_of_mem _ h')
          · exact Or.inr h'

theorem filter_idem {α : Type} (p : α → Bool) (l : List α) :
    (l.filter p).filter p = l.filter p := by
  induction l with
  | nil => rfl
  | cons hd tl ih =>
      by_cases hp : p hd = true
      · simp [List.filter_cons, hp, ih]
      · simp only [Bool.not_eq_true] at hp
        simp [List.filter_cons, hp, ih]

/-- Replacing the first matching record by a version of itself with one
non-timestamp attribute rewritten preserves every record's `createdAt` and
`updatedAt`. -/
theorem map_stamp_replaceFirst (table : List Item) (u i : String) (item : Item)
    (k : String) (v : Value) (hfi : findItem table u i = some item)
    (hk1 : k ≠ "createdAt") (hk2 : k ≠ "updatedAt") :
    (replaceFirst table u i fun _ => item.setAttr k v).map
        (fun it => (it.getAttr "createdAt", it.getAttr "updatedAt"))
      = table.map fun it => (it.getAttr "createdAt", it.getAttr "updatedAt") := by
  refine map_replaceFirst _ table u i _ ?_
  intro it hit
  rw [hfi] at hit
  injection hit with h
  subst h
  show ((item.setAttr k v).getAttr "createdAt", (item.setAttr k v).getAttr "updatedAt") = _
  rw [getAttr_setAttr_ne _ _ _ _ hk1, getAttr_setAttr_ne _ _ _ _ hk2]

/-- A translation request never changes any stored record's `createdAt` or
`updatedAt`: the cache writes touch only the `translations` map or the flat
`translatedText_<language>` attribute. -/
theorem translate_table_stamps (env : Env) (userId? itemId? language? : Option String)
    (table : List Item) :
    ((translateHandler env userId? itemId? language? table).2.1).map
        (fun it => (it.getAttr "createdAt", it.getAttr "updatedAt"))
      = table.map fun it => (it.getAttr "createdAt", it.getAttr "updatedAt") := by
  by_cases hg : (!(strTruthy userId?) || !(strTruthy itemId?)) = true
  · rw [translateHandler, if_pos hg]
  · rw [translateHandler, if_neg hg]
    generalize resolveLanguage language? = lang
    generalize userId?.getD "" = u
    generalize itemId?.getD "" = i
    by_cases hv : isValidLanguageCode lang = true
    · cases hfi : findItem table u i with
      | none => simp [translateCore, hv, hfi]
      | some item =>
        by_cases hdt : truthyV (item.getAttr "description") = true
        · by_cases hhit : strTruthy (lookupA item.translations lang) = true
          · simp [translateCore, hv, hfi, hdt, hhit]
          · simp only [Bool.not_eq_true] at hhit
            by_cases hfa : truthyV (item.getAttr ("translatedText_" ++ lang)) = true
            · simp [translateCore, hv, hfi, hdt, hhit, hfa]
            · simp only [Bool.not_eq_true] at hfa
              cases herr : env.translatorError with
              | some e => simp [translateCore, hv, hfi, hdt, hhit, hfa, herr]
              | none =>
                cases hm : env.failMapWrite with
                | false =>
                    simp only [translateCore, cacheTranslation, hv, hfi, hdt, hhit,
                      hfa, herr, hm]
                    simp only [Bool.not_true, Bool.false_eq_true, if_false,
                      Bool.not_false, if_true]
                    exact map_stamp_replaceFirst table u i item _ _ hfi
                      (by decide) (by decide)
                | true =>
                  cases hf : env.failFlatWrite with
                  | false =>
                      simp only [translateCore, cacheTranslation, hv, hfi, hdt, hhit,
                        hfa, herr, hm, hf]
                      simp only [Bool.not_true, Bool.false_eq_true, if_false,
                        Bool.not_false, if_true]
                      exact map_stamp_replaceFirst table u i item _ _ hfi
                        (Ne.symm (ne_flatAttrName "createdAt" (by decide) lang))
                        (Ne.symm (ne_flatAttrName "updatedAt" (by decide) lang))
                  | true =>
                      simp [translateCore, cacheTranslation, hv, hfi, hdt, hhit,
                        hfa, herr, hm, hf]
        · simp only [Bool.not_eq_true] at hdt
          simp [translateCore, hv, hfi, hdt]
    · simp only [Bool.not_eq_true] at hv
      simp [translateCore, hv]

/-! ### Claim C6 -/

/-- Claim C6, as stated, is false on the code: a successful
translation-cache write (the `SET translations = :translations` mutation
is performed and succeeds) leaves the stored `updatedAt` at its creation
value — the cache write does not set `updatedAt` at all. -/
theorem C6_counterexample :
    ((translateHandler envOk (some "u1") (some "i1") (some "fr") [itemBase]).2.1
      = [{ userId := "u1", itemId := "i1",
           attrs := [("description", .str "hello"), ("createdAt", .time 5),
                     ("updatedAt", .time 5),
                     ("translations", .map [("fr", "bonjour")])] }])
    ∧ (Op.dbWriteMap "u1" "i1" [("fr", "bonjour")]
        ∈ (translateHandler envOk (some "u1") (some "i1") (some "fr") [itemBase]).2.2) := by
  refine ⟨rfl, ?_⟩
  decide

/-- Claim C6 amended: a successful field update sets the stored `updatedAt`
to the orchestration-supplied timestamp, and creation stamps `createdAt`
and `updatedAt` with the same timestamp; but translation-cache writes
leave every stored record's `createdAt` and `updatedAt` unchanged. -/
theorem C6_timestamps :
    (∀ (now : Nat) (userId? itemId? : Option String) (body : List (String × Value))
       (table : List Item) (upd : Item),
       (body.map Prod.fst).Nodup →
       (updateHandler now userId? itemId? (some body) table).1 = .ok upd →
       upd.getAttr "updatedAt" = some (.time now))
    ∧ (∀ (env : Env) (userId? itemId? language? : Option String) (table : List Item),
       ((translateHandler env userId? itemId? language? table).2.1).map
           (fun it => (it.getAttr "createdAt", it.getAttr "updatedAt"))
         = table.map fun it => (it.getAttr "createdAt", it.getAttr "updatedAt"))
    ∧ (∀ (now : Nat) (body : List (String × Value)) (table : List Item) (item : Item),
       (createHandler now (some body) table).1 = .ok item →
       item.getAttr "createdAt" = some (.time now)
       ∧ item.getAttr "updatedAt" = some (.time now)) := by
  refine ⟨?_, ?_, ?_⟩
  · intro now userId? itemId? body table upd hnd hr
    by_cases hg : (!(strTruthy userId?) || !(strTruthy itemId?)) = true
    · rw [updateHandler, if_pos hg] at hr
      exact absurd hr (by simp)
    · rw [updateHandler, if_neg hg] at hr
      by_cases hp : priceOk (lookupA body "price") = true
      · by_cases hb : (buildUpdateExpression (setA body "updatedAt" (.time now))).hasUpdates
          = true
        · cases hfi : findItem table (userId?.getD "") (itemId?.getD "") with
          | none => simp [updateCore, hp, hb, hfi] at hr
          | some cur =>
            simp only [updateCore, hp, Bool.not_true, Bool.false_eq_true, if_false, hb,
              Bool.not_false, hfi] at hr
            have hupd : upd = applyAssignments cur
                (buildUpdateExpression (setA body "updatedAt" (.time now))).assignments := by
              have h' := hr
              simp only [UpdResult.ok.injEq] at h'
              exact h'.symm
            have hnd1 : ((setA body "updatedAt" (Value.time now)).map Prod.fst).Nodup :=
              nodup_keys_setA body "updatedAt" (Value.time now) hnd
            have hsub : List.Sublist
                (((setA body "updatedAt" (Value.time now)).filter nonKeyPair).map Prod.fst)
                ((setA body "updatedAt" (Value.time now)).map Prod.fst) :=
              List.Sublist.map Prod.fst (List.filter_sublist _)
            have hnd2 : (((setA body "updatedAt" (Value.time now)).filter nonKeyPair).map
                Prod.fst).Nodup := List.Nodup.sublist hsub hnd1
            have hmem : ("updatedAt", Value.time now)
                ∈ (setA body "updatedAt" (Value.time now)).filter nonKeyPair :=
              List.mem_filter.mpr ⟨mem_setA_self body "updatedAt" (Value.time now), rfl⟩
            rw [hupd]
            exact getAttr_applyAssignments_mem cur _ "updatedAt" (Value.time now)
              hnd2 hmem
        · simp only [Bool.not_eq_true] at hb
          simp [updateCore, hp, hb] at hr
      · simp only [Bool.not_eq_true] at hp
        simp [updateCore, hp] at hr
  · exact translate_table_stamps
  · intro now body table item hr
    have hred : createHandler now (some body) table = createCore now body table := rfl
    rw [hred] at hr
    by_cases hg : (!(truthyV (lookupA body "userId")) || !(truthyV (lookupA body "itemId")))
        = true
    · rw [createCore, if_pos hg] at hr
      exact absurd hr (by simp)
    · rw [createCore, if_neg hg] at hr
      by_cases hp : priceOk (lookupA body "price") = true
      · cases hfi : findItem table
            (match lookupA body "userId" with | some (Value.str s) => s | _ => "")
            (match lookupA body "itemId" with | some (Value.str s) => s | _ => "") with
        | some old => simp [hp, hfi] at hr
        | none =>
            simp only [hp, Bool.not_true, Bool.false_eq_true, if_false, hfi,
              UpdResult.ok.injEq] at hr
            rw [← hr]
            constructor
            · rw [Item.getAttr]
              show lookupA (setA (setA (body.filter nonKeyPair) "createdAt"
                (Value.time now)) "updatedAt" (Value.time now)) "createdAt"
                  = some (Value.time now)
              rw [lookupA_setA_ne _ _ _ _ (by decide)]
              exact lookupA_setA_self (body.filter nonKeyPair) "createdAt" (Value.time now)
            · rw [Item.getAttr]
              exact lookupA_setA_self (setA (body.filter nonKeyPair) "createdAt"
                (Value.time now)) "updatedAt" (Value.time now)
      · simp only [Bool.not_eq_true] at hp
        simp [hp] at hr

/-- Witness for `C6_timestamps`: a concrete field update stamps the record
with the supplied timestamp. -/
theorem C6_timestamps_witness :
    ({ userId := "u1", itemId := "i1",
       attrs := [("description", .str "hello"), ("createdAt", .time 5),
                 ("updatedAt", .time 10), ("name", .str "x")] } : Item).getAttr
        "updatedAt" = some (.time 10) :=
  C6_timestamps.1 10 (some "u1") (some "i1") [("name", .str "x")] [itemBase]
    { userId := "u1", itemId := "i1",
      attrs := [("description", .str "hello"), ("createdAt", .time 5),
                ("updatedAt", .time 10), ("name", .str "x")] }
    (by decide) rfl

/-! ### Claim C7 -/

/-- Claim C7, as stated, is false on the code: an update request that
supplies a `createdAt` field overwrites the stored `createdAt` — only the
two key fields are dropped by `buildUpdateExpression`. -/
theorem C7_counterexample :
    itemBase.getAttr "createdAt" = some (.time 5)
    ∧ (updateHandler 10 (some "u1") (some "i1")
        (some [("createdAt", .time 999)]) [itemBase]).1
      = .ok { userId := "u1", itemId := "i1",
              attrs := [("description", .str "hello"), ("createdAt", .time 999),
                        ("updatedAt", .time 10)] } :=
  ⟨rfl, rfl⟩

/-- Claim C7 amended: `createdAt` is assigned at creation and is changed
neither by translation-cache writes nor by update requests that do not
themselves supply a `createdAt` field; an update request that does supply
`createdAt` overwrites it. -/
theorem C7_createdAt_preserved :
    (∀ (now : Nat) (userId? itemId? : Option String) (body : List (String × Value))
       (table : List Item),
       "createdAt" ∉ body.map Prod.fst →
       ((updateHandler now userId? itemId? (some body) table).2.1).map
           (fun it => it.getAttr "createdAt")
         = table.map fun it => it.getAttr "createdAt")
    ∧ (∀ (env : Env) (userId? itemId? language? : Option String) (table : List Item),
       ((translateHandler env userId? itemId? language? table).2.1).map
           (fun it => it.getAttr "createdAt")
         = table.map fun it => it.getAttr "createdAt") := by
  constructor
  · intro now userId? itemId? body table hbody
    by_cases hg : (!(strTruthy userId?) || !(strTruthy itemId?)) = true
    · rw [updateHandler, if_pos hg]
    · rw [updateHandler, if_neg hg]
      show ((updateCore now (userId?.getD "") (itemId?.getD "") body table).2.1).map
          (fun it => it.getAttr "createdAt") = _
      by_cases hp : priceOk (lookupA body "price") = true
      · by_cases hb : (buildUpdateExpression (setA body "updatedAt" (.time now))).hasUpdates
          = true
        · cases hfi : findItem table (userId?.getD "") (itemId?.getD "") with
          | none => simp [updateCore, hp, hb, hfi]
          | some cur =>
            simp only [updateCore, hp, Bool.not_true, Bool.false_eq_true, if_false, hb,
              Bool.not_false, if_true, hfi]
            refine map_replaceFirst _ table _ _ _ ?_
            intro it hit
            rw [hfi] at hit
            injection hit with h
            subst h
            have hne : ∀ kv ∈ (buildUpdateExpression
                (setA body "updatedAt" (.time now))).assignments, kv.1 ≠ "createdAt" := by
              intro kv hkv
              have hkv' : kv ∈ setA body "updatedAt" (Value.time now) :=
                (List.mem_filter.mp hkv).1
              rcases mem_setA body "updatedAt" (Value.time now) kv hkv' with h' | h'
              · intro hc
                apply hbody
                have : kv.1 ∈ body.map Prod.fst := List.mem_map_of_mem Prod.fst h'
                rwa [hc] at this
              · rw [h']
                decide
            exact getAttr_applyAssignments_notMem cur _ "createdAt" hne
        · simp only [Bool.not_eq_true] at hb
          simp [updateCore, hp, hb]
      · simp only [Bool.not_eq_true] at hp
        simp [updateCore, hp]
  · intro env userId? itemId? language? table
    have h := translate_table_stamps env userId? itemId? language? table
    have h2 := congrArg (List.map Prod.fst) h
    simpa [List.map_map, Function.comp] using h2

/-- Witness for `C7_createdAt_preserved`: a concrete update that does not
supply `createdAt` leaves it unchanged. -/
theorem C7_createdAt_preserved_witness :
    ((updateHandler 10 (some "u1") (some "i1") (some [("name", .str "x")])
        [itemBase]).2.1).map (fun it => it.getAttr "createdAt")
      = [some (.time 5)] := by
  have h := C7_createdAt_preserved.1 10 (some "u1") (some "i1") [("name", .str "x")]
    [itemBase] (by decide)
  rw [h]
  rfl

/-! ### Claim C8 -/

/-- Claim C8: the compiled mutation never assigns a key field (every
assignment emitted by `buildUpdateExpression` is a non-key field); key
fields present in the request body are silently dropped — the handler
behaves identically on a body with and without its key-field entries, so
their presence never produces an error; and no update request changes any
stored record's (userId, itemId) key pair. -/
theorem C8_keys_untouched :
    (∀ d : List (String × Value),
       ((buildUpdateExpression d).assignments.all nonKeyPair) = true)
    ∧ (∀ (now : Nat) (userId? itemId? : Option String) (body : List (String × Value))
       (table : List Item),
       updateHandler now userId? itemId? (some body) table
         = updateHandler now userId? itemId? (some (body.filter nonKeyPair)) table)
    ∧ (∀ (now : Nat) (userId? itemId? : Option String)
       (body? : Option (List (String × Value))) (table : List Item),
       ((updateHandler now userId? itemId? body? table).2.1).map
           (fun it => (it.userId, it.itemId))
         = table.map fun it => (it.userId, it.itemId)) := by
  refine ⟨?_, ?_, ?_⟩
  · intro d
    rw [List.all_eq_true]
    intro kv hkv
    exact (List.mem_filter.mp hkv).2
  · intro now userId? itemId? body table
    by_cases hg : (!(strTruthy userId?) || !(strTruthy itemId?)) = true
    · rw [updateHandler, updateHandler, if_pos hg, if_pos hg]
    · rw [updateHandler, updateHandler, if_neg hg, if_neg hg]
      show updateCore now (userId?.getD "") (itemId?.getD "") body table
          = updateCore now (userId?.getD "") (itemId?.getD "") (body.filter nonKeyPair) table
      have hprice : lookupA (body.filter nonKeyPair) "price" = lookupA body "price" :=
        lookupA_filter nonKeyPair body "price" (fun v => rfl)
      have hfil : (setA (body.filter nonKeyPair) "updatedAt" (Value.time now)).filter
            nonKeyPair
          = (setA body "updatedAt" (Value.time now)).filter nonKeyPair := by
        rw [filter_setA nonKeyPair (body.filter nonKeyPair) "updatedAt" (Value.time now)
              (fun w => rfl),
            filter_setA nonKeyPair body "updatedAt" (Value.time now) (fun w => rfl),
            filter_idem]
      have hbue : buildUpdateExpression (setA (body.filter nonKeyPair) "updatedAt"
            (Value.time now))
          = buildUpdateExpression (setA body "updatedAt" (Value.time now)) := by
        simp [buildUpdateExpression, hfil]
      simp only [updateCore, hprice, hbue]
  · intro now userId? itemId? body? table
    cases body? with
    | none =>
        by_cases hg : (!(strTruthy userId?) || !(strTruthy itemId?)) = true
        · rw [updateHandler, if_pos hg]
        · rw [updateHandler, if_neg hg]
    | some body =>
      by_cases hg : (!(strTruthy userId?) || !(strTruthy itemId?)) = true
      · rw [updateHandler, if_pos hg]
      · rw [updateHandler, if_neg hg]
        show ((updateCore now (userId?.getD "") (itemId?.getD "") body table).2.1).map
            (fun it => (it.userId, it.itemId)) = _
        by_cases hp : priceOk (lookupA body "price") = true
        · by_cases hb : (buildUpdateExpression (setA body "updatedAt" (.time now))).hasUpdates
            = true
          · cases hfi : findItem table (userId?.getD "") (itemId?.getD "") with
            | none => simp [updateCore, hp, hb, hfi]
            | some cur =>
              simp only [updateCore, hp, Bool.not_true, Bool.false_eq_true, if_false, hb,
                Bool.not_false, if_true, hfi]
              refine map_replaceFirst _ table _ _ _ ?_
              intro it hit
              rw [hfi] at hit
              injection hit with h
              subst h
              show ((applyAssignments cur _).userId, (applyAssignments cur _).itemId)
                  = (cur.userId, cur.itemId)
              rw [applyAssignments_userId, applyAssignments_itemId]
          · simp only [Bool.not_eq_true] at hb
            simp [updateCore, hp, hb]
        · simp only [Bool.not_eq_true] at hp
          simp [updateCore, hp]

/-! ### Claim C10 -/

/-- Claim C10: a translation request that supplies no language parameter is
not rejected by validation; it behaves exactly as a request with
targetLanguage = "en". -/
theorem C10_default_language (env : Env) (userId? itemId? : Option String)
    (table : List Item) :
    translateHandler env userId? itemId? none table
      = translateHandler env userId? itemId? (some "en") table := by
  have h : resolveLanguage none = resolveLanguage (some "en") := rfl
  unfold translateHandler
  rw [h]

end ItemStore
